import Mathlib

/-!
Verification of the kubeimage rollout tool (src/kubeimage.js) against its
natural-language specification.  The definitions below are a shallow
embedding of the functions of src/kubeimage.js: pod/deployment records as
parsePods and parseDeployments build them, the name-derivation regular
expression, the build extraction regular expression, the positional
build-to-pod assignment of getPodsWithBuildNumbers, the health-check
listener of healthCheckPods, the forEach dispatch and the tick of
pollPods, the retry loop of execRetry, and the error handler of
updateDeploymentBuildNumber.
-/

namespace Kubeimage

/-- A pod record as parsePods (src/kubeimage.js lines 61-77) builds it:
id, readiness (the two ready counts compared as strings), derived name,
lifecycle state token, restart count, and the build number filled in
later by getPodsWithBuildNumbers (absent until then). -/
structure Pod where
  id : String
  ready : Bool
  name : String
  state : String
  restarts : String
  build : Option String := none
  deriving Repr, DecidableEq

/-- A deployment record as parseDeployments (lines 47-59) builds it: the
desired replica count is kept as the captured digit string. -/
structure Deployment where
  name : String
  desiredCount : String
  deriving Repr, DecidableEq

/-- Whether the regular expression fragment `-[0-9]*-` matches at the head
of `cs`: a hyphen, then a possibly empty run of digits, then a hyphen.
Backtracking over the digit run cannot help, because a shorter run leaves a
digit, never a hyphen, under the final `-`. -/
def dashDigitsDash (cs : List Char) : Bool :=
  match cs with
  | '-' :: rest => (rest.dropWhile Char.isDigit).head? == some '-'
  | _ => false

/-- The match of the anchored pattern  ^(.*)-[0-9]*-  against `cs` (the m2
step of parsePods, line 66): the greedy first group takes the longest
prefix that is followed by a hyphen, a digit run, a hyphen, so the capture
cuts at the last position where that fragment matches; with no such
position there is no match and the id is kept. -/
def deriveNameList (cs : List Char) : List Char :=
  let cands := (List.range cs.length).filter (fun i => dashDigitsDash (cs.drop i))
  match cands.getLast? with
  | some i => cs.take i
  | none => cs

/-- The derived deployment name of a pod id (parsePods line 70:
`m2 ? m2[1] : m[1]`). -/
def deriveName (s : String) : String :=
  String.mk (deriveNameList s.data)

/-- Numeric value of a decimal digit string: the coercion JavaScript `==`
applies to `deployment.desiredCount` (a captured digit string) when
comparing it with the number `totalPodsRunning + totalErrors` at line 239. -/
def digitsVal (s : String) : Nat :=
  s.data.foldl (fun a c => 10 * a + (c.toNat - 48)) 0

/-- Constant maxExecRetries of src/kubeimage.js line 18. -/
def maxExecRetries : Nat := 30

/-- Constant execDelay (milliseconds) of line 19. -/
def execDelay : Nat := 2000

/-- Initial value of pollInterval (milliseconds), line 165. -/
def pollIntervalDefault : Nat := 5000

/-- Initial value of pollTimeout (seconds), line 166. -/
def pollTimeoutDefault : Nat := 600

/-- One health-check listener closure as healthCheckPods (lines 218-257)
registers it: the captured service name, the desired count captured from
the deployment record, and the expected build number.  `lid` stands for
the closure's object identity, which `_.pull(pollingListeners, listener)`
compares by. -/
structure Listener where
  lid : Nat
  serviceName : String
  desiredCount : String
  buildNumber : String
  deriving Repr, DecidableEq

/-- The shared polling state of lines 161-167: the active target names,
the registered listeners, and the aggregate error flag. -/
structure PollSt where
  targets : List String
  listeners : List Listener
  hasErrors : Bool
  deriving Repr, DecidableEq

/-- The hard-failure test of the listener (line 230): a state is an error
state when it is none of ContainerCreating, Running, Pending,
Terminating. -/
def errorState (s : String) : Bool :=
  !(s == "ContainerCreating" || s == "Running" || s == "Pending" || s == "Terminating")

/-- Whether a pod increments totalErrors in the listener (lines 229-232):
its build equals the expected build (a string comparison; an absent build
never equals a string) and its state is a hard-failure state. -/
def podCountsError (buildNumber : String) (pod : Pod) : Bool :=
  pod.build == some buildNumber && errorState pod.state

/-- Whether a pod increments totalPodsRunning (lines 229, 233-235): build
matches, the hard-failure branch was not taken, state is Running and the
pod is ready. -/
def podCountsRunning (buildNumber : String) (pod : Pod) : Bool :=
  pod.build == some buildNumber && (!errorState pod.state && (pod.state == "Running" && pod.ready))

/-- totalErrors for one listener over a snapshot: pods are first filtered
to the target's name (`_.filter(pods, { name: serviceName })`, line 223),
then counted by the error branch. -/
def totalErrorsFor (serviceName buildNumber : String) (pods : List Pod) : Nat :=
  ((pods.filter (fun p => p.name == serviceName)).filter (podCountsError buildNumber)).length

/-- totalPodsRunning for one listener over a snapshot (lines 223-237). -/
def totalRunningFor (serviceName buildNumber : String) (pods : List Pod) : Nat :=
  ((pods.filter (fun p => p.name == serviceName)).filter (podCountsRunning buildNumber)).length

/-- The resolution condition of line 239:
`totalPodsRunning + totalErrors == deployment.desiredCount`. -/
def listenerResolves (pods : List Pod) (l : Listener) : Bool :=
  totalRunningFor l.serviceName l.buildNumber pods
    + totalErrorsFor l.serviceName l.buildNumber pods == digitsVal l.desiredCount

/-- One invocation of the listener (lines 222-249): on resolution the
error flag is set when totalErrors is positive, the service name is pulled
from pollingTargets and the listener from pollingListeners (lodash `_.pull`
removes every element equal to its argument); otherwise nothing changes. -/
def listenerStep (pods : List Pod) (l : Listener) (st : PollSt) : PollSt :=
  let totalRunning := totalRunningFor l.serviceName l.buildNumber pods
  let totalErrors := totalErrorsFor l.serviceName l.buildNumber pods
  if totalRunning + totalErrors = digitsVal l.desiredCount then
    { targets := st.targets.filter (fun t => t != l.serviceName),
      listeners := st.listeners.filter (fun x => x != l),
      hasErrors := if 0 < totalErrors then true else st.hasErrors }
  else st

/-- The dispatch pass `pollingListeners.forEach(listener => listener(pods))`
of lines 182-184 with JavaScript Array.prototype.forEach semantics: the
length is read once at the start, the loop then visits indices 0..len-1 of
the current (mutating) array, skipping an index that no longer exists.
The returned list records the identities of the listeners invoked, in
order. -/
def dispatchAux (pods : List Pod) : Nat → Nat → PollSt → List Nat → PollSt × List Nat
  | 0, _, st, tr => (st, tr)
  | fuel + 1, k, st, tr =>
    match st.listeners.get? k with
    | some l => dispatchAux pods fuel (k + 1) (listenerStep pods l st) (tr ++ [l.lid])
    | none => dispatchAux pods fuel (k + 1) st tr

/-- One full dispatch pass over the registered listeners. -/
def dispatch (pods : List Pod) (st : PollSt) : PollSt × List Nat :=
  dispatchAux pods st.listeners.length 0 st []

/-- Exit code of finishUpdate (lines 194-200). -/
def finishExit (hasErrors : Bool) : Nat := if hasErrors then 1 else 0

/-- Outcome of one tick of pollPods. -/
inductive TickResult
  | timeoutExit (remaining : List String) (exitCode : Nat)
  | finished (hasErrors : Bool) (exitCode : Nat)
  | next (st : PollSt)
  deriving Repr, DecidableEq

/-- One tick of pollPods (lines 169-192): first the deadline test
`now - pollStarted > pollTimeout`, which exits the process with status 1
listing the remaining targets before any snapshot is fetched; otherwise
the snapshot is dispatched to the listeners, then finishUpdate runs if the
target set is empty, else the next tick is scheduled. -/
def pollTick (now pollStarted pollTimeout : Nat) (pods : List Pod) (st : PollSt) : TickResult :=
  if now - pollStarted > pollTimeout then
    TickResult.timeoutExit st.targets 1
  else
    let st1 := (dispatch pods st).1
    if st1.targets.length = 0 then TickResult.finished st1.hasErrors (finishExit st1.hasErrors)
    else TickResult.next st1

/-- Outcome of running the poll loop over a list of tick inputs. -/
inductive RunOutcome
  | running (st : PollSt)
  | timedOut (remaining : List String) (exitCode : Nat)
  | done (hasErrors : Bool) (exitCode : Nat)
  deriving Repr, DecidableEq

/-- The poll loop over a sequence of ticks, each with its clock reading and
fetched snapshot: it keeps ticking until a tick exits the process. -/
def pollRun (pollStarted pollTimeout : Nat) : List (Nat × List Pod) → PollSt → RunOutcome
  | [], st => RunOutcome.running st
  | (now, pods) :: rest, st =>
    match pollTick now pollStarted pollTimeout pods st with
    | TickResult.timeoutExit r c => RunOutcome.timedOut r c
    | TickResult.finished h c => RunOutcome.done h c
    | TickResult.next st1 => pollRun pollStarted pollTimeout rest st1

/-- The positional build assignment of getPodsWithBuildNumbers (lines
89-99): the while loop walks the pattern matches of the combined output in
order, writing the Nth match into the Nth pod (`pods[index].build = m[1]`)
and ignoring a match whose index has no pod (`if (pods[index])`); a pod
beyond the last match keeps its absent build. -/
def assignBuilds : List Pod → List String → List Pod
  | [], _ => []
  | p :: ps, [] => p :: ps
  | p :: ps, b :: bs => { p with build := some b } :: assignBuilds ps bs

/-- The pod filter of getPodsWithBuildNumbers line 88:
`deployments.indexOf(pod.name) !== -1`. -/
def filterToDeployments (deployments : List String) (pods : List Pod) : List Pod :=
  pods.filter (fun p => deployments.contains p.name)

/-- getPodsWithBuildNumbers (lines 85-105) on an already parsed snapshot:
filter the pods to the requested deployments, then assign the pattern
matches of the batched query output positionally. -/
def getPodsWithBuildNumbersModel (deployments : List String) (pods : List Pod)
    (ms : List String) : List Pod :=
  assignBuilds (filterToDeployments deployments pods) ms

/-- The literal token  image:  searched for by the build extraction
pattern of getPodBuildNumber (line 141) and getDeploymentBuildNumber
(line 152). -/
def imageTok : List Char := 'i' :: 'm' :: 'a' :: 'g' :: 'e' :: ':' :: []

/-- The capture of the extraction pattern on the rest of the matching
line: the greedy dot-star backtracks to the last hyphen of the line, and
the possibly empty digit run after that hyphen is captured. -/
def captureAfterLastDash (line : List Char) : List Char :=
  ((line.reverse.takeWhile (fun c => c != '-')).reverse).takeWhile Char.isDigit

/-- The first match of the build extraction pattern (the token  image:
then any same-line characters, a hyphen, and a captured digit run) over
the whole command output, exactly as the unanchored JavaScript regex finds
it: the scan advances one character at a time, and a position matches when
the token starts there and a hyphen follows on the same line.  `none`
models the NotFound callback of lines 144-146 and 155-157. -/
def findBuild : List Char → Option (List Char)
  | [] => none
  | c :: cs =>
    let rest := (c :: cs).drop imageTok.length
    let line := rest.takeWhile (fun x => x != '\n')
    if imageTok.isPrefixOf (c :: cs) && line.contains '-' then
      some (captureAfterLastDash line)
    else findBuild cs

/-- Spec-side description of a matchable output: somewhere in the text the
token  image:  occurs, followed by a hyphen with no newline in between. -/
def HasImageDash (cs : List Char) : Prop :=
  ∃ pre mid post, cs = pre ++ imageTok ++ mid ++ '-' :: post ∧ mid.all (fun c => c != '\n')

/-- Trace of one execRetry call (lines 21-45): how many times the external
command ran, the delay scheduled before each retry, how many times the
caller-supplied error handler ran, whether the fatal branch
(process.exit(1)) was taken, and the stdout delivered on success. -/
structure ExecTrace where
  attempts : Nat
  delays : List Nat
  handlerCalls : Nat
  fatalExit : Bool
  succeeded : Option String
  deriving Repr, DecidableEq

/-- execRetry from tryNumber `t` (lines 21-45): the command runs; on
success the callback gets stdout; on failure tryNumber is incremented and,
past maxExecRetries, the error handler runs once if supplied and otherwise
the process exits fatally; below the bound the call is rescheduled after
execDelay milliseconds.  `outcome k` is what the k-th execution of the
external command returns (`none` is a failure: non-zero exit or stderr
content). -/
def execRetryAux (hasOnError : Bool) (outcome : Nat → Option String) (t : Nat) : ExecTrace :=
  match outcome t with
  | some out =>
    { attempts := 1, delays := [], handlerCalls := 0, fatalExit := false, succeeded := some out }
  | none =>
    if h : t + 1 > maxExecRetries then
      { attempts := 1, delays := [], handlerCalls := 1, fatalExit := !hasOnError,
        succeeded := none }
    else
      let rest := execRetryAux hasOnError outcome (t + 1)
      { attempts := 1 + rest.attempts, delays := execDelay :: rest.delays,
        handlerCalls := rest.handlerCalls, fatalExit := rest.fatalExit,
        succeeded := rest.succeeded }
termination_by maxExecRetries + 1 - t
decreasing_by omega

/-- execRetry as called, with tryNumber defaulted to 0 (lines 22-24). -/
def execRetry (hasOnError : Bool) (outcome : Nat → Option String) : ExecTrace :=
  execRetryAux hasOnError outcome 0

/-- The identifiers in scope inside the onError closure of
updateDeploymentBuildNumber (lines 207-215): its enclosing function's
parameters and local, the module-level bindings of src/kubeimage.js, the
required modules, and the host globals the file uses.  Neither `error` nor
`stderr` is among them: the closure takes no parameters and no enclosing
scope declares either name. -/
def updateOnErrorScope : List String :=
  ["deployment", "newBuildNumber", "originalBuild", "serviceName",
   "namespace", "kubeConfig", "maxExecRetries", "execDelay",
   "pollingStarted", "pollingTargets", "pollingListeners", "pollingHasErrors",
   "pollInterval", "pollTimeout", "pollStarted",
   "timeLog", "execRetry", "parseDeployments", "parsePods", "getPods",
   "getPodsWithBuildNumbers", "getDeployments", "getNiceState", "getExtraParams",
   "getPodBuildNumber", "getDeploymentBuildNumber", "pollPods", "finishUpdate",
   "updateDeploymentBuildNumber", "healthCheckPods",
   "exec", "chalk", "timestamp", "async", "_",
   "console", "process", "require", "setTimeout", "Math", "Date", "JSON"]

/-- Reading a variable in strict-mode JavaScript: a name not bound in any
enclosing scope raises a ReferenceError. -/
def jsVar (scope : List String) (v : String) : Except String Unit :=
  if scope.contains v then Except.ok () else Except.error ("ReferenceError: " ++ v ++ " is not defined")

/-- What the handler did after mutating the state. -/
inductive HandlerOutcome
  | crashed (message : String)
  | finishedUpdate (exitCode : Nat)
  | returned
  deriving Repr, DecidableEq

/-- The onError handler of updateDeploymentBuildNumber (lines 207-215), in
statement order: log, pull the service from pollingTargets, set
pollingHasErrors, evaluate `console.error(error, stderr)` - which reads
the unbound names `error` and `stderr` - and only then test whether the
target set emptied and call finishUpdate. -/
def updateOnError (serviceName : String) (st : PollSt) : PollSt × HandlerOutcome :=
  let st1 : PollSt :=
    { st with targets := st.targets.filter (fun t => t != serviceName), hasErrors := true }
  match jsVar updateOnErrorScope "error" with
  | Except.error m => (st1, HandlerOutcome.crashed m)
  | Except.ok _ =>
    match jsVar updateOnErrorScope "stderr" with
    | Except.error m => (st1, HandlerOutcome.crashed m)
    | Except.ok _ =>
      if st1.targets.length = 0 then (st1, HandlerOutcome.finishedUpdate (finishExit st1.hasErrors))
      else (st1, HandlerOutcome.returned)

/-! ## Helper lemmas -/

lemma assignBuilds_length (pods : List Pod) (ms : List String) :
    (assignBuilds pods ms).length = pods.length := by
  induction pods generalizing ms with
  | nil => cases ms <;> rfl
  | cons p ps ih =>
    cases ms with
    | nil => rfl
    | cons b bs => simpa [assignBuilds] using ih bs

lemma assignBuilds_get? (pods : List Pod) (ms : List String) (i : Nat) :
    (assignBuilds pods ms).get? i =
      (pods.get? i).map (fun p =>
        match ms.get? i with
        | some b => { p with build := some b }
        | none => p) := by
  induction pods generalizing ms i with
  | nil => cases ms <;> simp [assignBuilds]
  | cons p ps ih =>
    cases ms with
    | nil =>
      cases i with
      | zero => rfl
      | succ j => simp [assignBuilds]
    | cons b bs =>
      cases i with
      | zero => rfl
      | succ j => simpa [assignBuilds] using ih bs j

lemma execRetryAux_allFail (b : Bool) (o : Nat → Option String) (ho : ∀ k, o k = none) :
    ∀ n t, t + n = maxExecRetries →
      execRetryAux b o t =
        { attempts := n + 1, delays := List.replicate n execDelay, handlerCalls := 1,
          fatalExit := !b, succeeded := none } := by
  intro n
  induction n with
  | zero =>
    intro t ht
    unfold execRetryAux
    rw [ho t]
    rw [dif_pos (by omega)]
    rfl
  | succ m ih =>
    intro t ht
    unfold execRetryAux
    rw [ho t]
    rw [dif_neg (by omega)]
    rw [ih (t + 1) (by omega)]
    simp [List.replicate_succ]
    omega

/-! ## Claim theorems -/

/-- C6: the batched per-instance build query associates builds to pods
positionally: the Nth pod gets the Nth pattern match of the combined
output; with fewer matches than pods the trailing pods keep an absent
build, and extra matches are dropped without error (the result has exactly
the requested pods). -/
theorem C6_positional_build_assignment :
    ∀ (pods : List Pod) (ms : List String),
      (assignBuilds pods ms).length = pods.length ∧
      (∀ i p, pods.get? i = some p →
        (assignBuilds pods ms).get? i =
          some (match ms.get? i with
                | some b => { p with build := some b }
                | none => p)) ∧
      (∀ i p, pods.get? i = some p → ms.length ≤ i →
        (assignBuilds pods ms).get? i = some p) ∧
      ∀ deployments ms2, getPodsWithBuildNumbersModel deployments pods ms2
        = assignBuilds (filterToDeployments deployments pods) ms2 := by
  intro pods ms
  refine ⟨assignBuilds_length pods ms, ?_, ?_, fun _ _ => rfl⟩
  · intro i p hp
    rw [assignBuilds_get?, hp, Option.map_some']
  · intro i p hp hlen
    rw [assignBuilds_get?, hp, Option.map_some', List.get?_eq_none.mpr hlen]

/-- C9: with an always-failing external command, execRetry runs the
command maxExecRetries + 1 = 31 times, schedules each retry after the
fixed execDelay = 2000ms, and then invokes the error handler exactly once
(the caller-supplied one when present, else the fatal exit path). -/
theorem C9_retry_exhaustion :
    ∀ (hasOnError : Bool) (outcome : Nat → Option String),
      (∀ k, outcome k = none) →
      execRetry hasOnError outcome =
        { attempts := maxExecRetries + 1, delays := List.replicate maxExecRetries execDelay,
          handlerCalls := 1, fatalExit := !hasOnError, succeeded := none } ∧
      maxExecRetries = 30 ∧ execDelay = 2000 := by
  intro b o ho
  exact ⟨execRetryAux_allFail b o ho maxExecRetries 0 (by omega), rfl, rfl⟩

/-- Witness for C9 at the constantly failing outcome with no handler. -/
theorem C9_retry_exhaustion_witness :
    execRetry false (fun _ => none) =
      { attempts := maxExecRetries + 1, delays := List.replicate maxExecRetries execDelay,
        handlerCalls := 1, fatalExit := !false, succeeded := none } ∧
    maxExecRetries = 30 ∧ execDelay = 2000 :=
  C9_retry_exhaustion false (fun _ => none) (fun _ => rfl)

/-- C3: when the elapsed seconds since the loop started exceed the
configured timeout (default 600) on a tick with a non-empty target set,
pollPods exits the process with status 1 reporting exactly the still
active target names, and does so whatever snapshot would have been
fetched: the loop never continues past the deadline. -/
theorem C3_global_timeout :
    ∀ (now pollStarted pollTimeout : Nat) (pods : List Pod) (st : PollSt),
      now - pollStarted > pollTimeout →
      st.targets ≠ [] →
      pollTick now pollStarted pollTimeout pods st = TickResult.timeoutExit st.targets 1 ∧
      (∀ pods2, pollTick now pollStarted pollTimeout pods2 st
        = TickResult.timeoutExit st.targets 1) ∧
      (∀ st2, pollTick now pollStarted pollTimeout pods st ≠ TickResult.next st2) ∧
      pollTimeoutDefault = 600 := by
  intro now ps pt pods st h _
  refine ⟨by simp [pollTick, h], fun pods2 => by simp [pollTick, h], fun st2 => ?_, rfl⟩
  simp [pollTick, h]

/-- Witness for C3: one second past the default deadline with one active
target. -/
theorem C3_global_timeout_witness :
    pollTick 601 0 600 [] { targets := ["api"], listeners := [], hasErrors := false }
      = TickResult.timeoutExit ["api"] 1 ∧
    (∀ pods2, pollTick 601 0 600 pods2 { targets := ["api"], listeners := [], hasErrors := false }
      = TickResult.timeoutExit ["api"] 1) ∧
    (∀ st2, pollTick 601 0 600 [] { targets := ["api"], listeners := [], hasErrors := false }
      ≠ TickResult.next st2) ∧
    pollTimeoutDefault = 600 :=
  C3_global_timeout 601 0 600 [] { targets := ["api"], listeners := [], hasErrors := false }
    (by norm_num) (by decide)

/-- C1: a health-check listener resolves exactly when the Succeeded count
plus the Failed count over the matching pods equals the numeric value of
the deployment's captured desired count: on resolution the target name
and the listener itself are removed (within the same dispatch, as the
single-listener dispatch conjunct shows) and the global error flag is set
exactly when the Failed count is positive; short of the condition the
state is untouched, so the target stays active and the listener stays
registered. -/
theorem C1_resolution_condition :
    ∀ (pods : List Pod) (l : Listener) (st : PollSt) (ts : List String) (he : Bool),
      (totalRunningFor l.serviceName l.buildNumber pods
          + totalErrorsFor l.serviceName l.buildNumber pods = digitsVal l.desiredCount →
        (listenerStep pods l st).targets = st.targets.filter (fun t => t != l.serviceName) ∧
        l.serviceName ∉ (listenerStep pods l st).targets ∧
        l ∉ (listenerStep pods l st).listeners ∧
        (listenerStep pods l st).hasErrors =
          (if 0 < totalErrorsFor l.serviceName l.buildNumber pods then true else st.hasErrors)) ∧
      (totalRunningFor l.serviceName l.buildNumber pods
          + totalErrorsFor l.serviceName l.buildNumber pods ≠ digitsVal l.desiredCount →
        listenerStep pods l st = st) ∧
      ((listenerResolves pods l = true) ↔
        totalRunningFor l.serviceName l.buildNumber pods
          + totalErrorsFor l.serviceName l.buildNumber pods = digitsVal l.desiredCount) ∧
      (dispatch pods { targets := ts, listeners := [l], hasErrors := he }).1
        = listenerStep pods l { targets := ts, listeners := [l], hasErrors := he } := by
  intro pods l st ts he
  refine ⟨fun h => ?_, fun h => ?_, ?_, ?_⟩
  · have hs : listenerStep pods l st =
        { targets := st.targets.filter (fun t => t != l.serviceName),
          listeners := st.listeners.filter (fun x => x != l),
          hasErrors :=
            if 0 < totalErrorsFor l.serviceName l.buildNumber pods then true
            else st.hasErrors } := by
      simp [listenerStep, h]
    rw [hs]
    exact ⟨rfl, by simp [List.mem_filter], by simp [List.mem_filter], rfl⟩
  · simp [listenerStep, h]
  · simp [listenerResolves]
  · simp [dispatch, dispatchAux]

/-- C8: the error-handler branch of updateDeploymentBuildNumber does set
the global error flag and pull the failing target from the active set, but
then evaluates console.error on the unbound identifiers `error` and
`stderr` and crashes with a ReferenceError, so the final empty-set check
and finishUpdate call are unreachable: the other targets are killed with
the process instead of continuing. -/
theorem C8_update_error_handler_crashes :
    ∀ (serviceName : String) (st : PollSt),
      (updateOnError serviceName st).2
        = HandlerOutcome.crashed "ReferenceError: error is not defined" ∧
      (updateOnError serviceName st).1.hasErrors = true ∧
      serviceName ∉ (updateOnError serviceName st).1.targets ∧
      (∀ t, t ∈ st.targets → t ≠ serviceName → t ∈ (updateOnError serviceName st).1.targets) ∧
      (∀ e, (updateOnError serviceName st).2 ≠ HandlerOutcome.finishedUpdate e) := by
  intro sn st
  have hscope : "error" ∉ updateOnErrorScope := by decide
  refine ⟨?_, ?_, ?_, ?_, ?_⟩ <;>
    simp [updateOnError, jsVar, hscope, List.mem_filter] <;>
    exact fun t ht hne => ⟨ht, hne⟩

lemma findBuild_cons (c : Char) (cs : List Char) :
    findBuild (c :: cs) =
      if imageTok.isPrefixOf (c :: cs)
          && (((c :: cs).drop imageTok.length).takeWhile (fun x => x != '\n')).contains '-' then
        some (captureAfterLastDash (((c :: cs).drop imageTok.length).takeWhile (fun x => x != '\n')))
      else findBuild cs := rfl

lemma findBuild_isSome_of_split :
    ∀ (pre mid post : List Char), mid.all (fun c => c != '\n') = true →
      (findBuild (pre ++ imageTok ++ mid ++ '-' :: post)).isSome = true := by
  intro pre
  induction pre with
  | nil =>
    intro mid post hmid
    have hm : mid.takeWhile (fun x => x != '\n') = mid :=
      List.takeWhile_eq_self_iff.mpr (List.all_eq_true.mp hmid)
    rw [List.nil_append]
    show (findBuild ('i' :: 'm' :: 'a' :: 'g' :: 'e' :: ':' :: (mid ++ '-' :: post))).isSome
      = true
    rw [findBuild_cons]
    have hA : imageTok.isPrefixOf
        ('i' :: 'm' :: 'a' :: 'g' :: 'e' :: ':' :: (mid ++ '-' :: post)) = true := by
      simp [imageTok, List.isPrefixOf]
    have hdrop : (('i' : Char) :: 'm' :: 'a' :: 'g' :: 'e' :: ':'
        :: (mid ++ '-' :: post)).drop imageTok.length = mid ++ '-' :: post := rfl
    rw [hdrop, hA]
    have htake : (mid ++ '-' :: post).takeWhile (fun x => x != '\n')
        = mid ++ '-' :: post.takeWhile (fun x => x != '\n') := by
      rw [List.takeWhile_append, hm, if_pos rfl, List.takeWhile_cons]
      simp
    rw [htake]
    have hcont : (mid ++ '-' :: post.takeWhile (fun x => x != '\n')).contains '-' = true := by
      have hmem : ('-' : Char) ∈ mid ++ '-' :: post.takeWhile (fun x => x != '\n') := by simp
      simpa [List.contains] using List.elem_iff.mpr hmem
    rw [hcont]
    simp
  | cons c pre ih =>
    intro mid post hmid
    have hshape : (c :: pre) ++ imageTok ++ mid ++ '-' :: post
        = c :: (pre ++ imageTok ++ mid ++ '-' :: post) := by simp
    rw [hshape, findBuild_cons]
    split
    · simp
    · exact ih mid post hmid

/-- C10: on an output whose first image line contains a dash that is not
followed by digits (here the tag `latest` after the dash of the registry
segment), the extractor succeeds with the empty capture instead of
reporting NotFound, because the captured digit run may be empty; and
NotFound can be reported only when no image token is followed by a dash on
its line anywhere in the output - whenever such a dash exists, extraction
succeeds. -/
theorem C10_empty_build_capture :
    findBuild ("image: my-registry/app:latest".data) = some [] ∧
    (∀ cs : List Char, HasImageDash cs → (findBuild cs).isSome = true) := by
  constructor
  · decide
  · rintro cs ⟨pre, mid, post, rfl, hmid⟩
    exact findBuild_isSome_of_split pre mid post hmid

/-- Spec-side classification of one pod for one target, written to the
amended wording of the classification claim: pods whose derived name or
resolved build does not match are excluded; a matching pod is Failed when
its state is outside the recognized set ContainerCreating, Running,
Pending, Terminating (so Error, CrashLoopBackOff and every unrecognized
state); Succeeded when Running and ready; otherwise Transient. -/
inductive PodClass
  | succeeded
  | failed
  | transient
  | excluded
  deriving Repr, DecidableEq

/-- Spec-side classifier, to be compared with the code-side counters. -/
def classifySpec (serviceName buildNumber : String) (p : Pod) : PodClass :=
  if p.name ≠ serviceName ∨ p.build ≠ some buildNumber then PodClass.excluded
  else if p.state ∉ (["ContainerCreating", "Running", "Pending", "Terminating"] : List String) then
    PodClass.failed
  else if p.state = "Running" ∧ p.ready = true then PodClass.succeeded
  else PodClass.transient

lemma errorState_iff (s : String) :
    errorState s = true ↔
      s ∉ (["ContainerCreating", "Running", "Pending", "Terminating"] : List String) := by
  simp [errorState]
  tauto

lemma classifySpec_failed_bool (sn bn : String) (p : Pod) :
    (p.name == sn && podCountsError bn p) = (classifySpec sn bn p == PodClass.failed) := by
  rw [Bool.eq_iff_iff]
  by_cases h1 : p.name = sn <;> by_cases h2 : p.build = some bn <;>
    by_cases h3 : p.state ∈ (["ContainerCreating", "Running", "Pending", "Terminating"] : List String) <;>
      by_cases h4 : p.state = "Running" ∧ p.ready = true <;>
        simp [podCountsError, classifySpec, h1, h2, h3, h4, errorState_iff]

lemma classifySpec_succeeded_bool (sn bn : String) (p : Pod) :
    (p.name == sn && podCountsRunning bn p) = (classifySpec sn bn p == PodClass.succeeded) := by
  rw [Bool.eq_iff_iff]
  by_cases h1 : p.name = sn <;> by_cases h2 : p.build = some bn <;>
    by_cases h3 : p.state ∈ (["ContainerCreating", "Running", "Pending", "Terminating"] : List String) <;>
      by_cases h4 : p.state = "Running" <;> by_cases h5 : p.ready = true <;>
        simp_all [podCountsRunning, classifySpec, errorState]

/-- A pod whose build and name match its target but whose state is the
unrecognized ImagePullBackOff. -/
def cexPod : Pod :=
  { id := "api-123-x", ready := false, name := "api",
    state := "ImagePullBackOff", restarts := "0", build := some "7" }

/-- C2 counterexample: a matching pod in the unrecognized state
ImagePullBackOff is counted as Failed by the listener, although that state
is neither Error nor CrashLoopBackOff, refuting the only-if direction of
the claimed hard-failure set. -/
theorem C2_unrecognized_state_counted_failed :
    podCountsError "7" cexPod = true ∧
    cexPod.state ≠ "Error" ∧
    cexPod.state ≠ "CrashLoopBackOff" ∧
    totalErrorsFor "api" "7" [cexPod] = 1 := by
  refine ⟨by decide, by decide, by decide, by decide⟩

/-- C2 as amended: the listener's two counters agree with the spec-side
classifier, where a matching instance is Succeeded iff Running and ready,
Failed iff its state is outside the recognized set ContainerCreating,
Running, Pending, Terminating (a superset of the claimed hard-failure pair
Error and CrashLoopBackOff), everything else is Transient and counted in
neither total, and instances whose name or build does not match are
excluded from all counts. -/
theorem C2_classification :
    ∀ (sn bn : String) (pods : List Pod),
      totalRunningFor sn bn pods
        = pods.countP (fun p => classifySpec sn bn p == PodClass.succeeded) ∧
      totalErrorsFor sn bn pods
        = pods.countP (fun p => classifySpec sn bn p == PodClass.failed) ∧
      (∀ p : Pod, classifySpec sn bn p = PodClass.failed ↔
        (p.name = sn ∧ p.build = some bn ∧
          p.state ∉ (["ContainerCreating", "Running", "Pending", "Terminating"] : List String))) ∧
      (∀ p : Pod, classifySpec sn bn p = PodClass.succeeded ↔
        (p.name = sn ∧ p.build = some bn ∧ p.state = "Running" ∧ p.ready = true)) ∧
      (∀ p : Pod, (p.name ≠ sn ∨ p.build ≠ some bn) → classifySpec sn bn p = PodClass.excluded) ∧
      errorState "Error" = true ∧ errorState "CrashLoopBackOff" = true := by
  intro sn bn pods
  refine ⟨?_, ?_, ?_, ?_, ?_, by decide, by decide⟩
  · rw [totalRunningFor, List.filter_filter, ← List.countP_eq_length_filter]
    exact List.countP_congr fun p _ => by
      rw [← classifySpec_succeeded_bool sn bn p, Bool.and_comm]
  · rw [totalErrorsFor, List.filter_filter, ← List.countP_eq_length_filter]
    exact List.countP_congr fun p _ => by
      rw [← classifySpec_failed_bool sn bn p, Bool.and_comm]
  · intro p
    by_cases h1 : p.name = sn <;> by_cases h2 : p.build = some bn <;>
      by_cases h3 : p.state ∈ (["ContainerCreating", "Running", "Pending", "Terminating"] : List String) <;>
        by_cases h4 : p.state = "Running" ∧ p.ready = true <;>
          simp_all [classifySpec] <;> split <;> simp_all
  · intro p
    by_cases h1 : p.name = sn <;> by_cases h2 : p.build = some bn <;>
      by_cases h3 : p.state ∈ (["ContainerCreating", "Running", "Pending", "Terminating"] : List String) <;>
        by_cases h4 : p.state = "Running" <;> by_cases h5 : p.ready = true <;>
          simp_all [classifySpec]
  · intro p h
    simp [classifySpec, h]

lemma getLast?_filter_range_max (p : Nat → Bool) :
    ∀ n i, i < n → p i = true → (∀ j, i < j → p j = false) →
      ((List.range n).filter p).getLast? = some i := by
  intro n
  induction n with
  | zero => intro i hi; omega
  | succ m ih =>
    intro i hi hp hmax
    rw [List.range_succ, List.filter_append]
    by_cases him : i = m
    · subst him
      have h1 : List.filter p [i] = [i] := by simp [hp]
      rw [h1, List.getLast?_concat]
    · have hpm : p m = false := hmax m (by omega)
      have h0 : List.filter p [m] = [] := by simp [hpm]
      rw [h0, List.append_nil]
      exact ih i (by omega) hp hmax

/-- C7 counterexample: the id myapp-7f8c9d-abc12 of the claim has a hash
segment with letters in it, the stripping pattern (hyphen, digits, hyphen)
matches nowhere, and the derived name is the whole id, not myapp. -/
theorem C7_hash_segment_not_stripped :
    deriveName "myapp-7f8c9d-abc12" = "myapp-7f8c9d-abc12" ∧
    deriveName "myapp-7f8c9d-abc12" ≠ "myapp" := by
  refine ⟨by decide, by decide⟩

/-- C7 as amended: the derived name cuts the id at the last position where
a hyphen, a possibly empty digit run and another hyphen follow (so
myapp-3307299819-abc12, whose hash segment is numeric, derives myapp);
when no position of the id matches that pattern - in particular for an id
with no such suffixes, and for the claim's example id whose hash segment
contains letters - the id itself is the derived name. -/
theorem C7_name_derivation :
    deriveName "myapp-3307299819-abc12" = "myapp" ∧
    (∀ s : String, (∀ i, dashDigitsDash (s.data.drop i) = false) → deriveName s = s) ∧
    (∀ (s : String) (i : Nat), dashDigitsDash (s.data.drop i) = true →
      (∀ j, i < j → dashDigitsDash (s.data.drop j) = false) →
      deriveName s = String.mk (s.data.take i)) := by
  refine ⟨by decide, ?_, ?_⟩
  · intro s hall
    have hnil : (List.range s.data.length).filter
        (fun i => dashDigitsDash (s.data.drop i)) = [] :=
      List.filter_eq_nil.mpr fun a _ => by simp [hall a]
    cases s with
    | mk d =>
      simp only [deriveName, deriveNameList]
      rw [hnil]
      rfl
  · intro s i hp hmax
    have hi : i < s.data.length := by
      by_contra hcon
      rw [List.drop_eq_nil_of_le (by omega)] at hp
      exact absurd hp (by simp [dashDigitsDash])
    have hlast := getLast?_filter_range_max
      (fun j => dashDigitsDash (s.data.drop j)) s.data.length i hi hp hmax
    simp only [deriveName, deriveNameList]
    rw [hlast]

lemma drop_eq_cons_of_get? {α : Type} {l : List α} {k : Nat} {x : α}
    (h : l.get? k = some x) : l.drop k = x :: l.drop (k + 1) := by
  obtain ⟨h1, h2⟩ := List.get?_eq_some.mp h
  rw [List.drop_eq_get_cons h1, h2]

lemma eq_take_cons_drop_of_get? {α : Type} {l : List α} {k : Nat} {x : α}
    (h : l.get? k = some x) : l = l.take k ++ x :: l.drop (k + 1) := by
  conv_lhs => rw [← List.take_append_drop k l]
  rw [drop_eq_cons_of_get? h]

lemma listenerStep_of_not_resolves (pods : List Pod) (l : Listener) (st : PollSt)
    (h : listenerResolves pods l = false) : listenerStep pods l st = st := by
  have hne : ¬(totalRunningFor l.serviceName l.buildNumber pods
      + totalErrorsFor l.serviceName l.buildNumber pods = digitsVal l.desiredCount) := by
    intro hc
    rw [listenerResolves, hc] at h
    simp at h
  simp [listenerStep, hne]

lemma listenerStep_targets_sublist (pods : List Pod) (l : Listener) (st : PollSt) :
    (listenerStep pods l st).targets.Sublist st.targets := by
  by_cases h : totalRunningFor l.serviceName l.buildNumber pods
      + totalErrorsFor l.serviceName l.buildNumber pods = digitsVal l.desiredCount
  · simpa [listenerStep, h] using List.filter_sublist st.targets
  · simp [listenerStep, h]

lemma listenerStep_listeners_sublist (pods : List Pod) (l : Listener) (st : PollSt) :
    (listenerStep pods l st).listeners.Sublist st.listeners := by
  by_cases h : totalRunningFor l.serviceName l.buildNumber pods
      + totalErrorsFor l.serviceName l.buildNumber pods = digitsVal l.desiredCount
  · simpa [listenerStep, h] using List.filter_sublist st.listeners
  · simp [listenerStep, h]

lemma dispatchAux_succ_some (pods : List Pod) (m k : Nat) (st : PollSt) (tr : List Nat)
    (l : Listener) (h : st.listeners.get? k = some l) :
    dispatchAux pods (m + 1) k st tr
      = dispatchAux pods m (k + 1) (listenerStep pods l st) (tr ++ [l.lid]) := by
  have h2 : st.listeners[k]? = some l := by rw [← List.get?_eq_getElem?]; exact h
  simp [dispatchAux, h2]

lemma dispatchAux_succ_none (pods : List Pod) (m k : Nat) (st : PollSt) (tr : List Nat)
    (h : st.listeners.get? k = none) :
    dispatchAux pods (m + 1) k st tr = dispatchAux pods m (k + 1) st tr := by
  have h2 : st.listeners[k]? = none := by rw [← List.get?_eq_getElem?]; exact h
  simp [dispatchAux, h2]

lemma dispatchAux_sublists (pods : List Pod) :
    ∀ (fuel k : Nat) (st : PollSt) (tr : List Nat),
      (dispatchAux pods fuel k st tr).1.targets.Sublist st.targets ∧
      (dispatchAux pods fuel k st tr).1.listeners.Sublist st.listeners := by
  intro fuel
  induction fuel with
  | zero => intro k st tr; exact ⟨List.Sublist.refl _, List.Sublist.refl _⟩
  | succ m ih =>
    intro k st tr
    cases hget : st.listeners.get? k with
    | none => rw [dispatchAux_succ_none pods m k st tr hget]; exact ih (k + 1) st tr
    | some l =>
      rw [dispatchAux_succ_some pods m k st tr l hget]
      obtain ⟨h1, h2⟩ := ih (k + 1) (listenerStep pods l st) (tr ++ [l.lid])
      exact ⟨h1.trans (listenerStep_targets_sublist pods l st),
             h2.trans (listenerStep_listeners_sublist pods l st)⟩

lemma dispatchAux_no_resolve (pods : List Pod) (st : PollSt)
    (hno : ∀ l ∈ st.listeners, listenerResolves pods l = false) :
    ∀ (fuel k : Nat) (tr : List Nat),
      dispatchAux pods fuel k st tr
        = (st, tr ++ ((st.listeners.drop k).take fuel).map Listener.lid) := by
  intro fuel
  induction fuel with
  | zero => intro k tr; simp [dispatchAux]
  | succ m ih =>
    intro k tr
    cases hget : st.listeners.get? k with
    | none =>
      have hlen : st.listeners.length ≤ k := List.get?_eq_none.mp hget
      rw [dispatchAux_succ_none pods m k st tr hget, ih (k + 1) tr,
        List.drop_eq_nil_of_le hlen, List.drop_eq_nil_of_le (by omega)]
      simp
    | some l =>
      have hstep : listenerStep pods l st = st :=
        listenerStep_of_not_resolves pods l st (hno l (List.get?_mem hget))
      rw [dispatchAux_succ_some pods m k st tr l hget, hstep, ih (k + 1) (tr ++ [l.lid]),
        drop_eq_cons_of_get? hget]
      simp

lemma dispatchAux_inv (pods : List Pod) :
    ∀ (fuel k : Nat) (st : PollSt) (tr : List Nat),
      (st.listeners.map Listener.lid).Nodup →
      tr.Nodup →
      (∀ j l2, k ≤ j → st.listeners.get? j = some l2 → l2.lid ∉ tr) →
      (dispatchAux pods fuel k st tr).2.Nodup ∧
      (∀ i, i ∈ (dispatchAux pods fuel k st tr).2 →
        i ∈ tr ∨ i ∈ st.listeners.map Listener.lid) := by
  intro fuel
  induction fuel with
  | zero =>
    intro k st tr _ htr _
    exact ⟨htr, fun i hi => Or.inl hi⟩
  | succ m ih =>
    intro k st tr hnd htr hfresh
    cases hget : st.listeners.get? k with
    | none =>
      rw [dispatchAux_succ_none pods m k st tr hget]
      exact ih (k + 1) st tr hnd htr (fun j l2 hj hjl => hfresh j l2 (by omega) hjl)
    | some l =>
      rw [dispatchAux_succ_some pods m k st tr l hget]
      have hlfresh : l.lid ∉ tr := hfresh k l (le_refl k) hget
      have htr' : (tr ++ [l.lid]).Nodup := by
        rw [List.nodup_append]
        exact ⟨htr, List.nodup_singleton _, List.disjoint_singleton.mpr hlfresh⟩
      have hmem_l : l ∈ st.listeners := List.get?_mem hget
      have hk : k < st.listeners.length := (List.get?_eq_some.mp hget).1
      by_cases hres : totalRunningFor l.serviceName l.buildNumber pods
          + totalErrorsFor l.serviceName l.buildNumber pods = digitsVal l.desiredCount
      · -- the listener resolves and removes itself: the current array loses index k
        have hstl : (listenerStep pods l st).listeners
            = st.listeners.filter (fun x => x != l) := by
          simp [listenerStep, hres]
        have hdecomp : st.listeners
            = st.listeners.take k ++ l :: st.listeners.drop (k + 1) :=
          eq_take_cons_drop_of_get? hget
        have hklen : (st.listeners.take k).length = k := by
          rw [List.length_take]; omega
        have hndparts : l.lid ∉ (st.listeners.take k).map Listener.lid ∧
            l.lid ∉ (st.listeners.drop (k + 1)).map Listener.lid := by
          have := hnd
          rw [hdecomp] at this
          rw [List.map_append, List.map_cons, List.nodup_append] at this
          obtain ⟨_, hmid, hdisj⟩ := this
          exact ⟨fun hmem => (hdisj hmem) (List.mem_cons_self _ _),
                 (List.nodup_cons.mp hmid).1⟩
        have hfilter : st.listeners.filter (fun x => x != l)
            = st.listeners.take k ++ st.listeners.drop (k + 1) := by
          conv_lhs => rw [hdecomp]
          rw [List.filter_append, List.filter_cons]
          have hll : ((l != l) = true) = False := by simp
          simp only [bne_self_eq_false]
          rw [if_neg (by simp)]
          have hA : (st.listeners.take k).filter (fun x => x != l)
              = st.listeners.take k :=
            List.filter_eq_self.mpr fun a ha => by
              have : a ≠ l := by
                intro hcon
                exact hndparts.1 (List.mem_map.mpr ⟨a, ha, by rw [hcon]⟩)
              simpa using this
          have hB : (st.listeners.drop (k + 1)).filter (fun x => x != l)
              = st.listeners.drop (k + 1) :=
            List.filter_eq_self.mpr fun a ha => by
              have : a ≠ l := by
                intro hcon
                exact hndparts.2 (List.mem_map.mpr ⟨a, ha, by rw [hcon]⟩)
              simpa using this
          rw [hA, hB]
        have hnd' : ((listenerStep pods l st).listeners.map Listener.lid).Nodup := by
          rw [hstl]
          exact List.Nodup.sublist (List.Sublist.map Listener.lid
            (List.filter_sublist st.listeners)) hnd
        have hfresh' : ∀ j l2, k + 1 ≤ j →
            (listenerStep pods l st).listeners.get? j = some l2 →
            l2.lid ∉ tr ++ [l.lid] := by
          intro j l2 hj hjl
          rw [hstl, hfilter] at hjl
          have hjB : (st.listeners.drop (k + 1)).get? (j - k) = some l2 := by
            have := @List.get?_append_right _ (st.listeners.take k)
              (st.listeners.drop (k + 1)) j (by omega)
            rw [this] at hjl
            rw [hklen] at hjl
            exact hjl
          have horig : st.listeners.get? (j + 1) = some l2 := by
            conv_lhs => rw [hdecomp]
            rw [List.get?_append_right (by rw [hklen]; omega), hklen]
            have hidx : j + 1 - k = (j - k - 1) + 2 := by omega
            have hidx2 : (l :: st.listeners.drop (k + 1)).get? (j + 1 - k)
                = (st.listeners.drop (k + 1)).get? (j - k) := by
              have : j + 1 - k = (j - k) + 1 := by omega
              rw [this]
              rfl
            rw [hidx2]
            exact hjB
          have hnotr : l2.lid ∉ tr := hfresh (j + 1) l2 (by omega) horig
          have hne : l2.lid ≠ l.lid := by
            intro hcon
            have hmemB : l2 ∈ st.listeners.drop (k + 1) := List.get?_mem hjB
            exact hndparts.2 (List.mem_map.mpr ⟨l2, hmemB, hcon⟩)
          simp [List.mem_append, hnotr, hne]
        obtain ⟨h1, h2⟩ := ih (k + 1) (listenerStep pods l st)
          (tr ++ [l.lid]) hnd' htr' hfresh'
        refine ⟨h1, fun i hi => ?_⟩
        rcases h2 i hi with hi2 | hi2
        · rcases List.mem_append.mp hi2 with hi3 | hi3
          · exact Or.inl hi3
          · refine Or.inr (List.mem_map.mpr ⟨l, hmem_l, ?_⟩)
            exact (List.mem_singleton.mp hi3).symm
        · refine Or.inr ?_
          have hsub : (listenerStep pods l st).listeners.Sublist st.listeners :=
            listenerStep_listeners_sublist pods l st
          exact (List.Sublist.map Listener.lid hsub).subset hi2
      · -- the listener does not resolve: the state is unchanged
        have hst_eq : listenerStep pods l st = st := by
          simp [listenerStep, hres]
        rw [hst_eq]
        have hfresh' : ∀ j l2, k + 1 ≤ j → st.listeners.get? j = some l2 →
            l2.lid ∉ tr ++ [l.lid] := by
          intro j l2 hj hjl
          have hnotr : l2.lid ∉ tr := hfresh j l2 (by omega) hjl
          have hne : l2.lid ≠ l.lid := by
            intro hcon
            have hmapk : (st.listeners.map Listener.lid).get? k = some l.lid := by
              rw [List.get?_map, hget]; rfl
            have hmapj : (st.listeners.map Listener.lid).get? j = some l.lid := by
              rw [List.get?_map, hjl]
              simp [hcon]
            have : k = j := List.get?_inj (by simpa using hk) hnd (by rw [hmapk, hmapj])
            omega
          simp [List.mem_append, hnotr, hne]
        obtain ⟨h1, h2⟩ := ih (k + 1) st (tr ++ [l.lid]) hnd htr' hfresh'
        refine ⟨h1, fun i hi => ?_⟩
        rcases h2 i hi with hi2 | hi2
        · rcases List.mem_append.mp hi2 with hi3 | hi3
          · exact Or.inl hi3
          · refine Or.inr (List.mem_map.mpr ⟨l, hmem_l, ?_⟩)
            exact (List.mem_singleton.mp hi3).symm
        · exact Or.inr hi2

/-- A snapshot on which the first registered listener resolves at once. -/
def cexSnap : List Pod :=
  [{ id := "api-123-a", ready := true, name := "api", state := "Running",
     restarts := "0", build := some "5" }]

/-- First registered listener: its one pod is Running and ready. -/
def cexL0 : Listener := { lid := 0, serviceName := "api", desiredCount := "1", buildNumber := "5" }

/-- Second registered listener: its target has no matching pods yet. -/
def cexL1 : Listener := { lid := 1, serviceName := "web", desiredCount := "1", buildNumber := "6" }

/-- Poll state with both listeners registered, in registration order. -/
def cexSt : PollSt :=
  { targets := ["api", "web"], listeners := [cexL0, cexL1], hasErrors := false }

/-- C4 counterexample: in a dispatch pass where the first listener
resolves and deregisters itself, the second listener - registered at the
start of the pass and not resolved - is never invoked in that pass: the
forEach index moves past it after the in-place removal shifts it down.
The invocation trace holds only identity 0, not 1. -/
theorem C4_resolving_listener_skips_next :
    (dispatch cexSnap cexSt).2 = [0] ∧
    cexL1 ∈ cexSt.listeners ∧
    listenerResolves cexSnap cexL1 = false ∧
    cexL1.lid ∉ (dispatch cexSnap cexSt).2 ∧
    cexL1 ∈ (dispatch cexSnap cexSt).1.listeners := by
  refine ⟨by decide, by decide, by decide, by decide, by decide⟩

/-- C4 as amended: a dispatch pass invokes only listeners registered at
its start, each at most once (so none is ever invoked after its own
deregistration, within the pass or - since the listener list only
shrinks - on later ticks); and when no listener resolves during the pass,
every registered listener receives the snapshot exactly once, in order.
A listener that follows a resolving one in the array may however be
skipped for that pass, as the counterexample shows. -/
theorem C4_dispatch_per_pass :
    ∀ (pods : List Pod) (st : PollSt),
      (st.listeners.map Listener.lid).Nodup →
      (dispatch pods st).2.Nodup ∧
      (∀ i, i ∈ (dispatch pods st).2 → i ∈ st.listeners.map Listener.lid) ∧
      (dispatch pods st).1.listeners.Sublist st.listeners ∧
      ((∀ l, l ∈ st.listeners → listenerResolves pods l = false) →
        (dispatch pods st).2 = st.listeners.map Listener.lid ∧
        (dispatch pods st).1 = st) := by
  intro pods st hnd
  have hinv := dispatchAux_inv pods st.listeners.length 0 st [] hnd List.nodup_nil
    (by intro j l2 _ _; simp)
  refine ⟨hinv.1, fun i hi => ?_, (dispatchAux_sublists pods st.listeners.length 0 st []).2,
    fun hno => ?_⟩
  · rcases hinv.2 i hi with h | h
    · simp at h
    · exact h
  · have hrun := dispatchAux_no_resolve pods st hno st.listeners.length 0 []
    rw [dispatch, hrun]
    constructor
    · simp
    · rfl

/-- Witness for C4 at the concrete two-listener state. -/
theorem C4_dispatch_per_pass_witness :
    (dispatch cexSnap cexSt).2.Nodup ∧
    (∀ i, i ∈ (dispatch cexSnap cexSt).2 → i ∈ cexSt.listeners.map Listener.lid) ∧
    (dispatch cexSnap cexSt).1.listeners.Sublist cexSt.listeners ∧
    ((∀ l, l ∈ cexSt.listeners → listenerResolves cexSnap l = false) →
      (dispatch cexSnap cexSt).2 = cexSt.listeners.map Listener.lid ∧
      (dispatch cexSnap cexSt).1 = cexSt) :=
  C4_dispatch_per_pass cexSnap cexSt (by decide)

lemma pollTick_next_iff (now ps pt : Nat) (pods : List Pod) (st st1 : PollSt) :
    pollTick now ps pt pods st = TickResult.next st1 ↔
      (¬(now - ps > pt) ∧ (dispatch pods st).1.targets ≠ []
        ∧ st1 = (dispatch pods st).1) := by
  by_cases h1 : now - ps > pt
  · simp [pollTick, h1]
  · by_cases h2 : (dispatch pods st).1.targets.length = 0
    · have hnil : (dispatch pods st).1.targets = [] := List.length_eq_zero.mp h2
      simp [pollTick, h1, h2, hnil]
    · have hne : (dispatch pods st).1.targets ≠ [] := by
        intro hc
        rw [hc] at h2
        simp at h2
      simp [pollTick, h1, h2, hne, eq_comm]

lemma pollRun_running_sublist :
    ∀ (inputs : List (Nat × List Pod)) (ps pt : Nat) (st st2 : PollSt),
      pollRun ps pt inputs st = RunOutcome.running st2 → st2.targets.Sublist st.targets := by
  intro inputs
  induction inputs with
  | nil =>
    intro ps pt st st2 h
    rw [pollRun] at h
    cases h
    exact List.Sublist.refl _
  | cons x rest ih =>
    intro ps pt st st2 h
    obtain ⟨now, pods⟩ := x
    rw [pollRun] at h
    cases htick : pollTick now ps pt pods st with
    | timeoutExit r c => rw [htick] at h; cases h
    | finished he c => rw [htick] at h; cases h
    | next st1 =>
      rw [htick] at h
      have h1 := ih ps pt st1 st2 h
      obtain ⟨-, -, heq⟩ := (pollTick_next_iff now ps pt pods st st1).mp htick
      have h2 : st1.targets.Sublist st.targets := by
        rw [heq]
        exact (dispatchAux_sublists pods st.listeners.length 0 st []).1
      exact h1.trans h2

/-- One asynchronous callback unit of the orchestration, at the
granularity the Node event loop delivers them: the target push of main
(line 308, inside each target's getDeploymentBuildNumber callback), the
listener registration of healthCheckPods (lines 251-256, which also
starts the poll loop when it is not yet running), and one pollPods tick
(lines 169-192).  In a multi-target run the push and registration
callbacks of later targets are delivered whenever their network
round-trips complete, also after the loop has started ticking. -/
inductive OrchEvent
  | pushTarget (serviceName : String)
  | healthCheck (l : Listener)
  | tick (now : Nat) (pods : List Pod)
  deriving Repr, DecidableEq

/-- Whole-orchestration state: the polling globals plus the
pollingStarted flag of line 161, whether the process has exited, and how
many poll ticks have run so far. -/
structure OrchSt where
  pollingStarted : Bool
  poll : PollSt
  exited : Bool
  ticks : Nat
  deriving Repr, DecidableEq

/-- Effect of one delivered callback: a target push appends its name to
pollingTargets (line 308); healthCheckPods appends its listener and marks
the loop started (lines 251-254); a tick runs pollTick once the loop has
started, exiting the process on timeout or on an emptied target set.
Nothing runs after the process has exited. -/
def orchStep (ps pt : Nat) (st : OrchSt) (e : OrchEvent) : OrchSt :=
  if st.exited then st
  else
    match e with
    | OrchEvent.pushTarget name =>
        { st with poll := { st.poll with targets := st.poll.targets ++ [name] } }
    | OrchEvent.healthCheck l =>
        { st with poll := { st.poll with listeners := st.poll.listeners ++ [l] },
                  pollingStarted := true }
    | OrchEvent.tick now pods =>
        if st.pollingStarted then
          match pollTick now ps pt pods st.poll with
          | TickResult.timeoutExit _ _ => { st with exited := true }
          | TickResult.finished _ _ => { st with exited := true }
          | TickResult.next p => { st with poll := p, ticks := st.ticks + 1 }
        else st

/-- The orchestration state after a sequence of delivered callbacks. -/
def orchRun (ps pt : Nat) (events : List OrchEvent) (st : OrchSt) : OrchSt :=
  events.foldl (orchStep ps pt) st

/-- The initial orchestration state (lines 161-167). -/
def orchInit : OrchSt :=
  { pollingStarted := false,
    poll := { targets := [], listeners := [], hasErrors := false },
    exited := false, ticks := 0 }

/-- The callback schedule of a two-target run (api and web both given a
build) in which the second target's deployment query returns only after
the first target has entered polling: push api, register its health
check (starting the loop), the loop's first tick with a snapshot holding
no matching pods, then the late push of web from line 308. -/
def cexEvents : List OrchEvent :=
  [OrchEvent.pushTarget "api",
   OrchEvent.healthCheck { lid := 0, serviceName := "api", desiredCount := "1", buildNumber := "7" },
   OrchEvent.tick 0 [],
   OrchEvent.pushTarget "web"]

/-- C5 counterexample: after the first three callbacks the poll loop has
started and has run one tick, the process is still alive and the active
set holds only api; the late registration callback of the second target
then grows the active-target set to api, web - a target is added to the
set after the loop has started, refuting the claim's never-added
clause. -/
theorem C5_target_added_after_loop_start :
    (orchRun 0 600 (cexEvents.take 3) orchInit).pollingStarted = true ∧
    (orchRun 0 600 (cexEvents.take 3) orchInit).ticks = 1 ∧
    (orchRun 0 600 (cexEvents.take 3) orchInit).exited = false ∧
    (orchRun 0 600 (cexEvents.take 3) orchInit).poll.targets = ["api"] ∧
    (orchRun 0 600 cexEvents orchInit).poll.targets = ["api", "web"] ∧
    "web" ∉ (orchRun 0 600 (cexEvents.take 3) orchInit).poll.targets ∧
    "web" ∈ (orchRun 0 600 cexEvents orchInit).poll.targets := by
  refine ⟨by decide, by decide, by decide, by decide, by decide, by decide, by decide⟩

/-- C5 as amended: the poll ticks themselves only remove targets - a
tick, whether taken inside the poll loop or as an orchestration
callback, leaves a target list that is a sublist of the previous one, a
still-running tick sequence keeps a sublist of what it started with, and
a tick continues exactly when the deadline has not fired and the
post-dispatch target set is non-empty, so the loop exits exactly when
the set empties or the deadline fires, both conditions tested on every
tick.  The active-target set is NOT only decreasing over the loop's
life, however: a registration callback of a not-yet-updated target
(pollingTargets.push, line 308) appends its target to the active set
whenever it is delivered, also after the loop has started, as the
counterexample schedule shows. -/
theorem C5_target_set_monotone :
    ∀ (ps pt : Nat) (st : PollSt),
      (∀ now pods st1, pollTick now ps pt pods st = TickResult.next st1 →
        st1.targets.Sublist st.targets ∧ st1.targets ≠ [] ∧ now - ps ≤ pt) ∧
      (∀ now pods, (∃ st1, pollTick now ps pt pods st = TickResult.next st1) ↔
        (now - ps ≤ pt ∧ (dispatch pods st).1.targets ≠ [])) ∧
      (∀ now pods, now - ps > pt →
        pollTick now ps pt pods st = TickResult.timeoutExit st.targets 1) ∧
      (∀ now pods, now - ps ≤ pt → (dispatch pods st).1.targets = [] →
        pollTick now ps pt pods st = TickResult.finished (dispatch pods st).1.hasErrors
          (finishExit (dispatch pods st).1.hasErrors)) ∧
      (∀ inputs st2, pollRun ps pt inputs st = RunOutcome.running st2 →
        st2.targets.Sublist st.targets) ∧
      (∀ (ost : OrchSt) (now : Nat) (pods : List Pod),
        ((orchStep ps pt ost (OrchEvent.tick now pods)).poll.targets).Sublist
          ost.poll.targets) ∧
      (∀ (ost : OrchSt) (name : String), ost.exited = false →
        (orchStep ps pt ost (OrchEvent.pushTarget name)).poll.targets
          = ost.poll.targets ++ [name]) := by
  intro ps pt st
  refine ⟨?_, ?_, ?_, ?_, fun inputs st2 h => pollRun_running_sublist inputs ps pt st st2 h,
    ?_, ?_⟩
  · intro now pods st1 h
    obtain ⟨hdl, hne, heq⟩ := (pollTick_next_iff now ps pt pods st st1).mp h
    refine ⟨?_, by rw [heq]; exact hne, by omega⟩
    rw [heq]
    exact (dispatchAux_sublists pods st.listeners.length 0 st []).1
  · intro now pods
    constructor
    · rintro ⟨st1, h⟩
      obtain ⟨hdl, hne, -⟩ := (pollTick_next_iff now ps pt pods st st1).mp h
      exact ⟨by omega, hne⟩
    · rintro ⟨hdl, hne⟩
      exact ⟨(dispatch pods st).1,
        (pollTick_next_iff now ps pt pods st _).mpr ⟨by omega, hne, rfl⟩⟩
  · intro now pods h
    simp [pollTick, h]
  · intro now pods hdl hnil
    have hlen : (dispatch pods st).1.targets.length = 0 := by rw [hnil]; rfl
    simp [pollTick, hlen, show ¬(now - ps > pt) by omega]
  · intro ost now pods
    by_cases hex : ost.exited = true
    · simp [orchStep, hex]
    · have hex' : ost.exited = false := by simpa using hex
      cases hst : ost.pollingStarted with
      | false => simp [orchStep, hex', hst]
      | true =>
        cases htick : pollTick now ps pt pods ost.poll with
        | timeoutExit r c => simp [orchStep, hex', hst, htick]
        | finished he c => simp [orchStep, hex', hst, htick]
        | next p =>
          obtain ⟨-, -, heq⟩ := (pollTick_next_iff now ps pt pods ost.poll p).mp htick
          simp only [orchStep, hex', hst, htick, Bool.false_eq_true, if_false, if_true]
          rw [heq]
          exact (dispatchAux_sublists pods ost.poll.listeners.length 0 ost.poll []).1
  · intro ost name hex
    simp [orchStep, hex]

end Kubeimage
